import Mathlib

/-!
Shallow embedding of `scrape.py` (ICO enforcement-PDF scraper).

The program is a linear pipeline: fetch the enforcement list page, follow
each penalty-page link, extract one PDF link plus metadata per page,
download each PDF, hash it, and serialize `index.json` and
`metadata.json`.

Modelling conventions:
* HTML documents are modelled by the results of the three fixed XPath
  queries the scraper uses (`Page`): hrefs of anchors matching the
  list-page XPath, hrefs of anchors matching the PDF XPath, text contents
  of the `dd` elements matching the date XPath, and text contents of
  `h1` elements.
* The network is a total function from URL to `HttpResponse`
  (status code, parsed page, and raw body bytes).
* Python exceptions are an `Except Err` result; since Python exceptions
  do not roll back side effects, every operation returns its final state
  alongside the `Except` value.
* The filesystem is an association list from path (relative to the
  output directory) to file contents; a JSON file's contents are
  modelled as the JSON value passed to `json.dump`.
* Every `session.get` call appends the requested URL to a trace.
-/

namespace ICO

/-! ### Python string helpers -/

/-- The whitespace characters stripped by Python's `str.strip()`
(ASCII portion). -/
def isPySpace (c : Char) : Bool :=
  c = ' ' || c = '\t' || c = '\n' || c = '\x0d' || c = '\x0b' || c = '\x0c'

/-- Python `str.strip()`. -/
def pyStrip (s : String) : String :=
  String.mk (((s.data.dropWhile isPySpace).reverse.dropWhile isPySpace).reverse)

/-- `os.path.basename`: everything after the last `/`. -/
def basename (s : String) : String :=
  String.mk ((s.data.reverse.takeWhile (fun c => c ≠ '/')).reverse)

/-! ### Regex models

`_parse_id` uses `re.search` with pattern slash, one-or-more digits,
slash; `_parse_type` uses `re.search` with the literal
`/action-weve-taken/` followed by a lazy `.+?` group and a slash.
Both are modelled as left-to-right scans with the exact backtracking
semantics of the patterns. -/

/-- Scan for the leftmost match of a `/`, a nonempty digit run, `/`;
return the digit run.  Because a digit run followed by `/` can only
match by taking the whole maximal run, the regex semantics reduce to
this scan. -/
def parse_id_chars : List Char → Option String
  | [] => none
  | c :: rest =>
    if c = '/' then
      let ds := rest.takeWhile Char.isDigit
      let rest2 := rest.dropWhile Char.isDigit
      if ds ≠ [] ∧ rest2.head? = some '/' then some (String.mk ds)
      else parse_id_chars rest
    else parse_id_chars rest

/-- `ICOPenaltyScraper._parse_id`. -/
def parse_id (pdf_url : String) : Option String :=
  parse_id_chars pdf_url.data

/-- The literal part of the `_parse_type` pattern. -/
def typeLit : List Char := "/action-weve-taken/".data

/-- Lazy `.+?` up to a literal `/`, inner part of `lazyDotPlusSlash`:
the shortest run of non-newline characters ending right before the
next `/`. -/
def lazyGo : List Char → Option (List Char)
  | [] => none
  | c :: rest =>
    if c = '/' then some []
    else if c = '\n' then none
    else (lazyGo rest).map (fun g => c :: g)

/-- Match `(.+?)\/` at the start of `t`: the group is the (nonempty)
run of non-newline characters before the first `/` at index ≥ 1. -/
def lazyDotPlusSlash (t : List Char) : Option (List Char) :=
  match t with
  | [] => none
  | c :: rest =>
    if c = '\n' then none
    else (lazyGo rest).map (fun g => c :: g)

/-- Scan for the leftmost position where the whole `_parse_type`
pattern matches, returning the group. -/
def parse_type_chars : List Char → Option String
  | [] => none
  | c :: rest =>
    if typeLit.isPrefixOf (c :: rest) then
      match lazyDotPlusSlash ((c :: rest).drop typeLit.length) with
      | some g => some (String.mk g)
      | none => parse_type_chars rest
    else parse_type_chars rest

/-- The slug dictionary inside `_parse_type` (`.get(type_slug, None)`). -/
def slug_to_type (s : String) : Option String :=
  if s = "enforcement-notices" then some "enforcement-notice"
  else if s = "mpns" then some "monetary-penalty"
  else if s = "undertakings" then some "undertaking"
  else none

/-- `ICOPenaltyScraper._parse_type`. -/
def parse_type (pdf_url : String) : Option String :=
  (parse_type_chars pdf_url.data).bind slug_to_type

/-! ### `datetime.strptime(s, "%d %B %Y").date().isoformat()`

Modelled after CPython's `_strptime`: `%d` is the alternation
`3[01]|[12]\d|0[1-9]|[1-9]`, a space in the format matches one or more
whitespace characters, `%B` matches a full month name
case-insensitively, `%Y` matches exactly four digits, the whole string
must be consumed, and the resulting triple must form a valid
`datetime.date` (year ≥ 1, day within the month's length).
A parse failure (Python `ValueError`) is `none`. -/

def digitVal (c : Char) : Nat := c.toNat - 48

/-- `%d`: `3[01]|[12]\d|0[1-9]|[1-9]`, in alternation order. -/
def parseDay : List Char → Option (Nat × List Char)
  | [] => none
  | [c1] => if c1.isDigit ∧ c1 ≠ '0' then some (digitVal c1, []) else none
  | c1 :: c2 :: rest =>
    if c1 = '3' ∧ (c2 = '0' ∨ c2 = '1') then some (30 + digitVal c2, rest)
    else if (c1 = '1' ∨ c1 = '2') ∧ c2.isDigit then
      some (digitVal c1 * 10 + digitVal c2, rest)
    else if c1 = '0' ∧ c2.isDigit ∧ c2 ≠ '0' then some (digitVal c2, rest)
    else if c1.isDigit ∧ c1 ≠ '0' then some (digitVal c1, c2 :: rest)
    else none

/-- One-or-more whitespace (a space in the strptime format). -/
def parseWs1 : List Char → Option (List Char)
  | [] => none
  | c :: rest =>
    if isPySpace c then some (rest.dropWhile isPySpace) else none

def monthNamesLower : List String :=
  ["january", "february", "march", "april", "may", "june", "july",
   "august", "september", "october", "november", "december"]

/-- Case-insensitively strip `name` from the front of `l`. -/
def stripCI (name : String) (l : List Char) : Option (List Char) :=
  let n := name.length
  if (l.take n).map Char.toLower = name.data ∧ n ≤ l.length then
    some (l.drop n)
  else none

def parseMonthAux : Nat → List String → List Char → Option (Nat × List Char)
  | _, [], _ => none
  | i, nm :: rest, l =>
    match stripCI nm l with
    | some l2 => some (i, l2)
    | none => parseMonthAux (i + 1) rest l

/-- `%B`: a full month name, case-insensitive; returns 1..12. -/
def parseMonth (l : List Char) : Option (Nat × List Char) :=
  parseMonthAux 1 monthNamesLower l

/-- `%Y`: exactly four digits. -/
def parseYear4 : List Char → Option (Nat × List Char)
  | a :: b :: c :: d :: rest =>
    if a.isDigit ∧ b.isDigit ∧ c.isDigit ∧ d.isDigit then
      some ((((digitVal a * 10 + digitVal b) * 10 + digitVal c) * 10
              + digitVal d), rest)
    else none
  | _ => none

def isLeap (y : Nat) : Bool :=
  (y % 4 == 0 && y % 100 != 0) || y % 400 == 0

def daysInMonth (y m : Nat) : Nat :=
  if m = 2 then (if isLeap y then 29 else 28)
  else if m = 4 ∨ m = 6 ∨ m = 9 ∨ m = 11 then 30
  else 31

def pad2 (n : Nat) : String :=
  if n < 10 then "0" ++ toString n else toString n

def pad4 (n : Nat) : String :=
  if n < 10 then "000" ++ toString n
  else if n < 100 then "00" ++ toString n
  else if n < 1000 then "0" ++ toString n
  else toString n

/-- `datetime.datetime.strptime(s, "%d %B %Y").date().isoformat()`,
returning `none` where Python raises `ValueError`. -/
def strptimeDBY (s : String) : Option String :=
  match parseDay s.data with
  | none => none
  | some (d, r1) =>
    match parseWs1 r1 with
    | none => none
    | some r2 =>
      match parseMonth r2 with
      | none => none
      | some (m, r3) =>
        match parseWs1 r3 with
        | none => none
        | some r4 =>
          match parseYear4 r4 with
          | some (y, []) =>
            if 1 ≤ y ∧ d ≤ daysInMonth y m then
              some (pad4 y ++ "-" ++ pad2 m ++ "-" ++ pad2 d)
            else none
          | _ => none

/-! ### SHA-256 (`hashlib.sha256(...).hexdigest()`)

FIPS 180-4 SHA-256 over a byte list, producing the lowercase hex
digest.  32-bit words are `Nat`s reduced mod `2^32`. -/

def M32 : Nat := 4294967296

def add32 (a b : Nat) : Nat := (a + b) % M32

def rotr (n x : Nat) : Nat := ((x >>> n) ||| (x <<< (32 - n))) % M32

def bigSigma0 (x : Nat) : Nat := rotr 2 x ^^^ (rotr 13 x ^^^ rotr 22 x)

def bigSigma1 (x : Nat) : Nat := rotr 6 x ^^^ (rotr 11 x ^^^ rotr 25 x)

def smallSigma0 (x : Nat) : Nat := rotr 7 x ^^^ (rotr 18 x ^^^ (x >>> 3))

def smallSigma1 (x : Nat) : Nat := rotr 17 x ^^^ (rotr 19 x ^^^ (x >>> 10))

def chf (x y z : Nat) : Nat := (x &&& y) ^^^ ((4294967295 ^^^ x) &&& z)

def majf (x y z : Nat) : Nat := (x &&& y) ^^^ (x &&& z) ^^^ (y &&& z)

def K256 : List Nat :=
  [1116352408, 1899447441, 3049323471, 3921009573,
   961987163, 1508970993, 2453635748, 2870763221,
   3624381080, 310598401, 607225278, 1426881987,
   1925078388, 2162078206, 2614888103, 3248222580,
   3835390401, 4022224774, 264347078, 604807628,
   770255983, 1249150122, 1555081692, 1996064986,
   2554220882, 2821834349, 2952996808, 3210313671,
   3336571891, 3584528711, 113926993, 338241895,
   666307205, 773529912, 1294757372, 1396182291,
   1695183700, 1986661051, 2177026350, 2456956037,
   2730485921, 2820302411, 3259730800, 3345764771,
   3516065817, 3600352804, 4094571909, 275423344,
   430227734, 506948616, 659060556, 883997877,
   958139571, 1322822218, 1537002063, 1747873779,
   1955562222, 2024104815, 2227730452, 2361852424,
   2428436474, 2756734187, 3204031479, 3329325298]

/-- `n` as `k` big-endian bytes. -/
def toBytesBE : Nat → Nat → List Nat
  | 0, _ => []
  | k + 1, n => toBytesBE k (n / 256) ++ [n % 256]

/-- SHA-256 padding: `0x80`, zeros to 56 mod 64, 8-byte bit length. -/
def padMessage (msg : List Nat) : List Nat :=
  let padZeros := (119 - msg.length % 64) % 64
  msg ++ [0x80] ++ List.replicate padZeros 0 ++ toBytesBE 8 (8 * msg.length)

/-- Big-endian 32-bit words from bytes. -/
def bytesToWords : List Nat → List Nat
  | b0 :: b1 :: b2 :: b3 :: rest =>
    (((b0 * 256 + b1) * 256 + b2) * 256 + b3) :: bytesToWords rest
  | _ => []

/-- Split into 64-byte blocks (structural recursion on a fuel bound so
the definition reduces in the kernel; the fuel is never exhausted when
it starts at the list's length). -/
def blocks64Fuel : Nat → List Nat → List (List Nat)
  | _, [] => []
  | 0, _ => []
  | k + 1, c :: rest => (c :: rest.take 63) :: blocks64Fuel k (rest.drop 63)

/-- Split into 64-byte blocks. -/
def blocks64 (l : List Nat) : List (List Nat) :=
  blocks64Fuel l.length l

/-- Extend the 16-word block to the 64-word message schedule. -/
def extendSchedule : Nat → List Nat → List Nat
  | 0, w => w
  | k + 1, w =>
    let t := w.length
    extendSchedule k (w ++
      [add32 (add32 (smallSigma1 (w.getD (t - 2) 0)) (w.getD (t - 7) 0))
             (add32 (smallSigma0 (w.getD (t - 15) 0)) (w.getD (t - 16) 0))])

structure Hash8 where
  a : Nat
  b : Nat
  c : Nat
  d : Nat
  e : Nat
  f : Nat
  g : Nat
  h : Nat
deriving Repr, DecidableEq

def H0 : Hash8 :=
  ⟨1779033703, 3144134277, 1013904242, 2773480762,
   1359893119, 2600822924, 528734635, 1541459225⟩

def roundFn (s : Hash8) (kw : Nat × Nat) : Hash8 :=
  let t1 := add32 (add32 (add32 s.h (bigSigma1 s.e))
                         (chf s.e s.f s.g)) (add32 kw.1 kw.2)
  let t2 := add32 (bigSigma0 s.a) (majf s.a s.b s.c)
  ⟨add32 t1 t2, s.a, s.b, s.c, add32 s.d t1, s.e, s.f, s.g⟩

def compressBlock (hs : Hash8) (block : List Nat) : Hash8 :=
  let w := extendSchedule 48 (bytesToWords block)
  let s := (K256.zip w).foldl roundFn hs
  ⟨add32 hs.a s.a, add32 hs.b s.b, add32 hs.c s.c, add32 hs.d s.d,
   add32 hs.e s.e, add32 hs.f s.f, add32 hs.g s.g, add32 hs.h s.h⟩

def hexDigit (n : Nat) : Char :=
  if n < 10 then Char.ofNat (48 + n) else Char.ofNat (87 + n)

/-- A 32-bit word as 8 lowercase hex digits. -/
def hex8 (n : Nat) : String :=
  String.mk ((List.range 8).map (fun i => hexDigit ((n >>> (28 - 4 * i)) &&& 15)))

/-- `hashlib.sha256(bytes).hexdigest()`. -/
def sha256hex (msg : List Nat) : String :=
  let hs := (blocks64 (padMessage msg)).foldl compressBlock H0
  hex8 hs.a ++ hex8 hs.b ++ hex8 hs.c ++ hex8 hs.d ++
  hex8 hs.e ++ hex8 hs.f ++ hex8 hs.g ++ hex8 hs.h

/-! ### World, state and effects -/

/-- An HTML document, modelled by the results of the scraper's fixed
XPath queries: hrefs of anchors matching `XPATH_LIST_PAGE_LINK`, hrefs
of anchors matching `XPATH_PDF_LINK`, text contents of elements
matching `XPATH_DATE`, and text contents of `//h1` elements. -/
structure Page where
  listAnchorHrefs : List String
  pdfAnchorHrefs : List String
  dateTexts : List String
  h1Texts : List String
deriving Repr, DecidableEq

/-- An HTTP response: status code, the parsed document of its text,
and its body bytes. -/
structure HttpResponse where
  statusCode : Nat
  page : Page
  content : List Nat
deriving Repr, DecidableEq

/-- `datetime.timedelta(hours=1)`, in seconds. -/
def ONE_HOUR : Nat := 3600

/-- `RequestsWrapper`: the single cached session
(`requests_cache.core.CachedSession(expire_after=ONE_HOUR)`) all
requests go through.  `network` gives the response the session
returns for a URL. -/
structure RequestsWrapper where
  expire_after : Nat
  network : String → HttpResponse

/-- `RequestsWrapper.__init__`. -/
def RequestsWrapper.init (network : String → HttpResponse) : RequestsWrapper :=
  { expire_after := ONE_HOUR, network := network }

/-- JSON values (the scraper only ever serializes strings, `null`,
arrays and objects; object field order is the insertion order of the
`OrderedDict`). -/
inductive Jval where
  | null
  | str (s : String)
  | arr (xs : List Jval)
  | obj (fields : List (String × Jval))
deriving Repr

/-- A file's contents: raw bytes, or the JSON value handed to
`json.dump`. -/
inductive FsEntry where
  | bytes (bs : List Nat)
  | json (j : Jval)
deriving Repr

/-- Mutable world state: the output-directory filesystem (later writes
shadow earlier ones at the head of the list) and the trace of URLs
requested through the session, in order. -/
structure St where
  fs : List (String × FsEntry)
  trace : List String
deriving Repr

def fsLookup (fs : List (String × FsEntry)) (path : String) : Option FsEntry :=
  match fs with
  | [] => none
  | (p, e) :: rest => if p = path then some e else fsLookup rest path

/-- The bytes `io.open(path, 'rb').read()` returns (the scraper only
reads paths it has just written). -/
def bytesAt (fs : List (String × FsEntry)) (path : String) : List Nat :=
  match fsLookup fs path with
  | some (.bytes bs) => bs
  | _ => []

/-- Python exceptions the scraper can raise. -/
inductive Err where
  | httpError (url : String) (status : Nat)
  | runtimeError (msg : String)
  | valueError (msg : String)
  | typeError (msg : String)
deriving Repr, DecidableEq

/-- One `session.get`: returns the network's response and appends the
URL to the request trace. -/
def RequestsWrapper.get (w : RequestsWrapper) (url : String) (st : St) :
    HttpResponse × St :=
  (w.network url, { st with trace := st.trace ++ [url] })

/-- `requests.Response.raise_for_status`: raises `HTTPError` exactly
for status codes in [400, 600). -/
def raise_for_status (url : String) (r : HttpResponse) : Except Err Unit :=
  if 400 ≤ r.statusCode ∧ r.statusCode < 600 then
    .error (.httpError url r.statusCode)
  else .ok ()

/-! ### The scraper -/

def BASE_URL : String := "https://ico.org.uk"

def LIST_URL : String := BASE_URL ++ "/action-weve-taken/enforcement/"

/-- The `PDF` namedtuple. -/
structure PDF where
  id : Option String
  url : String
  type : Option String
  date : Option String
  title : Option String
  filename : String
  sha256 : Option String
deriving Repr, DecidableEq

/-- `ICOPenaltyScraper._expand_href` (`href.startswith('/')` is read
off the character list so the definition reduces by evaluation). -/
def expand_href (href : String) : String :=
  if href.data.head? = some '/' then BASE_URL ++ href else href

/-- `ICOPenaltyScraper._get_as_lxml`: one GET, `raise_for_status`,
then a `RuntimeError` on a literal 301 status, else the parsed page. -/
def get_as_lxml (w : RequestsWrapper) (url : String) (st : St) :
    Except Err Page × St :=
  let (r, st1) := w.get url st
  match raise_for_status url r with
  | .error e => (.error e, st1)
  | .ok _ =>
    if r.statusCode = 301 then
      (.error (.runtimeError "redirected"), st1)
    else (.ok r.page, st1)

/-- `ICOPenaltyScraper.parse_list_page`: fetch `LIST_URL`, produce
`self.penalty_pages` from the anchors matching the list XPath. -/
def parse_list_page (w : RequestsWrapper) (st : St) :
    Except Err (List String) × St :=
  match get_as_lxml w LIST_URL st with
  | (.error e, st1) => (.error e, st1)
  | (.ok root, st1) => (.ok (root.listAnchorHrefs.map expand_href), st1)

/-- `ICOPenaltyScraper._parse_pdf_url`: zero matching anchors gives
`None` (after a log warning), exactly one gives the expanded href,
more than one raises `RuntimeError`. -/
def parse_pdf_url (root : Page) (url : String) : Except Err (Option String) :=
  match root.pdfAnchorHrefs with
  | [] => .ok none
  | [a] => .ok (some (expand_href a))
  | _ => .error (.runtimeError ("Multiple PDF links: on page " ++ url))

/-- `ICOPenaltyScraper._parse_title`. -/
def parse_title (root : Page) : Option String :=
  match root.h1Texts with
  | [t] => some (pyStrip t)
  | _ => none

/-- `ICOPenaltyScraper._parse_date`: `None` unless the date XPath
matches exactly one element; a `ValueError` from `strptime` if that
element's text does not parse. -/
def parse_date (root : Page) : Except Err (Option String) :=
  match root.dateTexts with
  | [t] =>
    match strptimeDBY (pyStrip t) with
    | some iso => .ok (some iso)
    | none => .error (.valueError ("time data does not match format " ++ pyStrip t))
  | _ => .ok none

/-- `ICOPenaltyScraper.parse_pdf_url_from_penalty_page`. -/
def parse_pdf_url_from_penalty_page (w : RequestsWrapper) (url : String)
    (st : St) : Except Err (Option PDF) × St :=
  match get_as_lxml w url st with
  | (.error e, st1) => (.error e, st1)
  | (.ok root, st1) =>
    match parse_pdf_url root url with
    | .error e => (.error e, st1)
    | .ok none => (.ok none, st1)
    | .ok (some pdf_url) =>
      match parse_date root with
      | .error e => (.error e, st1)
      | .ok date =>
        (.ok (some
          { id := parse_id pdf_url
            url := pdf_url
            type := parse_type pdf_url
            date := date
            title := parse_title root
            filename := basename pdf_url
            sha256 := none }), st1)

/-- `ICOPenaltyScraper.parse_pdf_urls_from_penalty_pages`:
`list(filter(None, map(parse_pdf_url_from_penalty_page, pages)))` —
pages are visited in order, `None` results are dropped, and an
exception aborts the remaining pages. -/
def parse_pdf_urls_from_penalty_pages (w : RequestsWrapper)
    (pages : List String) (st : St) : Except Err (List PDF) × St :=
  match pages with
  | [] => (.ok [], st)
  | p :: rest =>
    match parse_pdf_url_from_penalty_page w p st with
    | (.error e, st1) => (.error e, st1)
    | (.ok opt, st1) =>
      match parse_pdf_urls_from_penalty_pages w rest st1 with
      | (.error e, st2) => (.error e, st2)
      | (.ok pdfs, st2) =>
        (.ok (match opt with | none => pdfs | some pdf => pdf :: pdfs), st2)

/-- The static method `ICOPenaltyScraper.sha256(filename)`: hash the
bytes read from the file. -/
def sha256_file (fs : List (String × FsEntry)) (path : String) : String :=
  sha256hex (bytesAt fs path)

/-- The inner `download_and_add_sha` of
`ICOPenaltyScraper.download_pdfs`: `io.open(..., 'wb')` creates and
truncates `pdfs/<filename>` before the GET is issued; after a
successful GET the body is written and the record's `sha256` field is
replaced by the digest of the file just written. -/
def download_and_add_sha (w : RequestsWrapper) (pdf : PDF) (st : St) :
    Except Err PDF × St :=
  let full_filename := "pdfs/" ++ pdf.filename
  let st1 : St := { st with fs := (full_filename, .bytes []) :: st.fs }
  let (r, st2) := w.get pdf.url st1
  match raise_for_status pdf.url r with
  | .error e => (.error e, st2)
  | .ok _ =>
    let st3 : St := { st2 with fs := (full_filename, .bytes r.content) :: st2.fs }
    (.ok { pdf with sha256 := some (sha256_file st3.fs full_filename) }, st3)

/-- `ICOPenaltyScraper.download_pdfs`: map `download_and_add_sha` over
`self.penalty_pdfs` in order; an exception aborts the rest. -/
def download_pdfs (w : RequestsWrapper) (pdfs : List PDF) (st : St) :
    Except Err (List PDF) × St :=
  match pdfs with
  | [] => (.ok [], st)
  | p :: rest =>
    match download_and_add_sha w p st with
    | (.error e, st1) => (.error e, st1)
    | (.ok p1, st1) =>
      match download_pdfs w rest st1 with
      | (.error e, st2) => (.error e, st2)
      | (.ok ps, st2) => (.ok (p1 :: ps), st2)

/-- An optional string as a JSON value (`json.dump` turns `None` into
`null`). -/
def optJ (x : Option String) : Jval :=
  match x with
  | none => .null
  | some s => .str s

/-- `int(s)` for a string: optional surrounding whitespace, optional
sign, then a nonempty digit run (underscore grouping, accepted by
Python 3.6+, is not modelled: the ids fed to the sort key are plain
digit runs from `_parse_id`). -/
def pyIntParse (s : String) : Option Int :=
  let l := ((s.data.dropWhile isPySpace).reverse.dropWhile isPySpace).reverse
  let sign : Int := if l.head? = some '-' then -1 else 1
  let digits : List Char :=
    if l.head? = some '-' ∨ l.head? = some '+' then l.tail else l
  if digits ≠ [] ∧ digits.all Char.isDigit then
    some (sign * ((digits.foldl (fun acc c => acc * 10 + digitVal c) 0 : Nat) : Int))
  else none

/-- The `to_dict` helper of `write_index_json`: an `OrderedDict` with
exactly these keys, in this insertion order. -/
def to_dict (pdf : PDF) : Jval :=
  .obj
    [("id", optJ pdf.id), ("url", .str pdf.url), ("type", optJ pdf.type),
     ("date", optJ pdf.date), ("title", optJ pdf.title),
     ("filename", .str pdf.filename), ("sha256", optJ pdf.sha256)]

/-- `int(x)` applied to the sort key `pdf.id : Optional[str]`:
`TypeError` on `None`, `ValueError` on a non-numeric string. -/
def pyInt (x : Option String) : Except Err Int :=
  match x with
  | none => .error (.typeError "int argument must be a string, not NoneType")
  | some s =>
    match pyIntParse s with
    | some n => .ok n
    | none => .error (.valueError ("invalid literal for int: " ++ s))

/-- `sorted(xs, key=f)` computes every key first (in list order, so
the first bad record raises), then stably sorts by key. -/
def computeKeys (pdfs : List PDF) : Except Err (List (Int × PDF)) :=
  match pdfs with
  | [] => .ok []
  | p :: rest =>
    match pyInt p.id with
    | .error e => .error e
    | .ok k =>
      match computeKeys rest with
      | .error e => .error e
      | .ok ks => .ok ((k, p) :: ks)

/-- Stable ascending sort by key: Python's `sorted` (Timsort) computes
the same list as insertion sort for the total preorder "key ≤ key". -/
def stableSortByKey (l : List (Int × PDF)) : List (Int × PDF) :=
  l.insertionSort (fun a b => a.1 ≤ b.1)

/-- `sorted(self.penalty_pdfs, key=lambda pdf: int(pdf.id))`. -/
def pySortedByIntId (pdfs : List PDF) : Except Err (List PDF) :=
  match computeKeys pdfs with
  | .error e => .error e
  | .ok ks => .ok ((stableSortByKey ks).map (fun kp => kp.2))

/-- `ICOPenaltyScraper.write_index_json`: sort the records by
`int(pdf.id)`, then dump `{"pdfs": [...]}` to `index.json`.  The sort
runs before the file is opened, so a sort failure leaves the
filesystem unchanged. -/
def write_index_json (pdfs : List PDF) (st : St) : Except Err Unit × St :=
  match pySortedByIntId pdfs with
  | .error e => (.error e, st)
  | .ok sortedPdfs =>
    (.ok (),
     { st with
       fs := ("index.json",
              .json (.obj [("pdfs", .arr (sortedPdfs.map to_dict))])) :: st.fs })

/-- `ICOPenaltyScraper.write_metadata_json`; `now` is
`datetime.datetime.now().isoformat()`. -/
def write_metadata_json (now : String) (st : St) : Except Err Unit × St :=
  (.ok (),
   { st with
     fs := ("metadata.json",
            .json (.obj [("last_updated", .str now)])) :: st.fs })

/-- `ICOPenaltyScraper.run`: the five stages in order (the `mkdir_p`
call only touches directories, which the filesystem model does not
track).  The returned list is `self.penalty_pdfs` after the run. -/
def run (w : RequestsWrapper) (now : String) (st : St) :
    Except Err (List PDF) × St :=
  match parse_list_page w st with
  | (.error e, st1) => (.error e, st1)
  | (.ok pages, st1) =>
    match parse_pdf_urls_from_penalty_pages w pages st1 with
    | (.error e, st2) => (.error e, st2)
    | (.ok pdfs, st2) =>
      match download_pdfs w pdfs st2 with
      | (.error e, st3) => (.error e, st3)
      | (.ok downloaded, st3) =>
        match write_index_json downloaded st3 with
        | (.error e, st4) => (.error e, st4)
        | (.ok _, st4) =>
          match write_metadata_json now st4 with
          | (_, st5) => (.ok downloaded, st5)

/-- The keys of a JSON object, in order. -/
def jkeys : Jval → List String
  | .obj fields => fields.map (fun f => f.1)
  | _ => []

/-! ### A small concrete world (used to instantiate the theorems) -/

def emptyPage : Page := ⟨[], [], [], []⟩

def acmePageUrl : String :=
  "https://ico.org.uk/action-weve-taken/enforcement/acme/"

def betaPageUrl : String :=
  "https://ico.org.uk/action-weve-taken/enforcement/beta/"

def acmePdfUrl : String :=
  "https://ico.org.uk/media/action-weve-taken/mpns/2014001/acme.pdf"

/-- A network with one list page linking two penalty pages; the first
carries one PDF anchor, a date and a title, the second has no PDF
anchor; the PDF itself serves four bytes; everything else is 404. -/
def demoNetwork : String → HttpResponse := fun url =>
  if url = LIST_URL then
    ⟨200, ⟨["/action-weve-taken/enforcement/acme/",
            "/action-weve-taken/enforcement/beta/"], [], [], []⟩, []⟩
  else if url = acmePageUrl then
    ⟨200, ⟨[], ["/media/action-weve-taken/mpns/2014001/acme.pdf"],
           ["21 December 2017"], [" Acme fined "]⟩, []⟩
  else if url = betaPageUrl then ⟨200, emptyPage, []⟩
  else if url = acmePdfUrl then ⟨200, emptyPage, [37, 80, 68, 70]⟩
  else ⟨404, emptyPage, []⟩

def demoW : RequestsWrapper := RequestsWrapper.init demoNetwork

/-- A network on which every request fails with a 500. -/
def badW : RequestsWrapper := RequestsWrapper.init (fun _ => ⟨500, emptyPage, []⟩)

def st0 : St := ⟨[], []⟩

/-- The record scraped from the acme penalty page, before download. -/
def acmeRec : PDF :=
  ⟨some "2014001", acmePdfUrl, some "monetary-penalty", some "2017-12-21",
   some "Acme fined", "acme.pdf", none⟩

/-- A second record with a smaller id, to exercise the sort. -/
def earlyRec : PDF :=
  ⟨some "5", "https://ico.org.uk/media/action-weve-taken/mpns/5/b.pdf",
   some "monetary-penalty", none, none, "b.pdf", none⟩

/-- A record whose PDF URL has no `/<digits>/` segment, so its id is
`None`. -/
def noIdRec : PDF :=
  ⟨none, "https://ico.org.uk/media/action-weve-taken/mpns/c.pdf",
   some "monetary-penalty", none, none, "c.pdf", none⟩

/-- A record whose URL the demo network rejects with a 404. -/
def badPdf : PDF := ⟨none, "https://bad", none, none, none, "bad.pdf", none⟩

/-- What the demo run downloads: the acme record with its digest. -/
def demoDownloaded : List PDF :=
  [{ acmeRec with sha256 := some "315d429b7714cedb6ad04ac31240145257692630457f3c88253c5beceac76027" }]

/-- A network whose single penalty page carries no PDF anchor. -/
def noPdfW : RequestsWrapper := RequestsWrapper.init (fun url =>
  if url = LIST_URL then ⟨200, ⟨[betaPageUrl], [], [], []⟩, []⟩
  else if url = betaPageUrl then ⟨200, emptyPage, []⟩
  else ⟨404, emptyPage, []⟩)

/-! ### Helper lemmas -/

/-- Whether the `_parse_type` literal occurs anywhere in the text. -/
def hasTypeLit : List Char → Bool
  | [] => false
  | c :: rest => typeLit.isPrefixOf (c :: rest) || hasTypeLit rest

theorem lazyGo_append (xs rest : List Char) (h1 : '/' ∉ xs)
    (h2 : '\n' ∉ xs) : lazyGo (xs ++ '/' :: rest) = some xs := by
  induction xs with
  | nil => simp [lazyGo]
  | cons c xs ih =>
    simp only [List.mem_cons, not_or] at h1 h2
    simp [lazyGo, Ne.symm h1.1, Ne.symm h2.1, ih h1.2 h2.2]

theorem lazyDotPlusSlash_append (slug rest : List Char) (hne : slug ≠ [])
    (h1 : '/' ∉ slug) (h2 : '\n' ∉ slug) :
    lazyDotPlusSlash (slug ++ '/' :: rest) = some slug := by
  cases slug with
  | nil => exact absurd rfl hne
  | cons c xs =>
    simp only [List.mem_cons, not_or] at h1 h2
    simp [lazyDotPlusSlash, Ne.symm h2.1, lazyGo_append xs rest h1.2 h2.2]

theorem parse_type_chars_at_lit (slug rest : List Char) (hne : slug ≠ [])
    (h1 : '/' ∉ slug) (h2 : '\n' ∉ slug) :
    parse_type_chars (typeLit ++ (slug ++ '/' :: rest)) = some (String.mk slug) := by
  have hpre : typeLit.isPrefixOf (typeLit ++ (slug ++ '/' :: rest)) := by
    rw [List.isPrefixOf_iff_prefix]
    exact List.prefix_append _ _
  have hdrop : (typeLit ++ (slug ++ '/' :: rest)).drop typeLit.length
      = slug ++ '/' :: rest := List.drop_left _ _
  have hl : typeLit ++ (slug ++ '/' :: rest)
      = '/' :: ("action-weve-taken/".data ++ (slug ++ '/' :: rest)) := by
    simp [typeLit]
  rw [hl, parse_type_chars, ← hl]
  simp only [hpre, if_true, hdrop,
    lazyDotPlusSlash_append slug rest hne h1 h2]

theorem parse_type_chars_none (l : List Char) (h : hasTypeLit l = false) :
    parse_type_chars l = none := by
  induction l with
  | nil => rfl
  | cons c rest ih =>
    simp only [hasTypeLit, Bool.or_eq_false_iff] at h
    rw [parse_type_chars]
    simp [h.1, ih h.2]

/-! ### Claims -/

/-- C6: `_parse_type` extracts the path segment after
`/action-weve-taken/` from the PDF URL and maps exactly three slugs —
`enforcement-notices` to `enforcement-notice`, `mpns` to
`monetary-penalty`, `undertakings` to `undertaking` — returning `none`
for every other slug and for any URL in which the pattern does not
match at all. -/
theorem C6_parse_type_spec :
    (∀ slug rest : List Char, slug ≠ [] → '/' ∉ slug → '\n' ∉ slug →
        parse_type (String.mk (typeLit ++ (slug ++ '/' :: rest))) =
          slug_to_type (String.mk slug)) ∧
    slug_to_type "enforcement-notices" = some "enforcement-notice" ∧
    slug_to_type "mpns" = some "monetary-penalty" ∧
    slug_to_type "undertakings" = some "undertaking" ∧
    (∀ s : String, s ≠ "enforcement-notices" → s ≠ "mpns" →
        s ≠ "undertakings" → slug_to_type s = none) ∧
    (∀ url : String, hasTypeLit url.data = false → parse_type url = none) := by
  refine ⟨?_, rfl, rfl, rfl, ?_, ?_⟩
  · intro slug rest hne h1 h2
    show (parse_type_chars (typeLit ++ (slug ++ '/' :: rest))).bind slug_to_type
        = slug_to_type (String.mk slug)
    rw [parse_type_chars_at_lit slug rest hne h1 h2]
    rfl
  · intro s h1 h2 h3
    simp [slug_to_type, h1, h2, h3]
  · intro url h
    show (parse_type_chars url.data).bind slug_to_type = none
    rw [parse_type_chars_none url.data h]
    rfl

/-- Witness for C6 at the slug `mpns` inside a realistic PDF URL. -/
theorem C6_parse_type_spec_witness :
    parse_type (String.mk (typeLit ++ ("mpns".data ++ '/' :: "1234/a.pdf".data)))
      = some "monetary-penalty" := by
  have h := C6_parse_type_spec.1 "mpns".data "1234/a.pdf".data
    (by decide) (by decide) (by decide)
  rw [h]
  rfl

/-- C7: `_parse_date` returns the ISO-8601 date obtained by parsing
the text of the single matched `dd` element in the format `%d %B %Y`;
zero or several matches give `None`, and a single match whose text
does not fit the format raises (`ValueError`). -/
theorem C7_parse_date_spec :
    (∀ root : Page, root.dateTexts.length ≠ 1 → parse_date root = .ok none) ∧
    (∀ root : Page, ∀ t iso : String, root.dateTexts = [t] →
        strptimeDBY (pyStrip t) = some iso → parse_date root = .ok (some iso)) ∧
    (∀ root : Page, ∀ t : String, root.dateTexts = [t] →
        strptimeDBY (pyStrip t) = none →
        parse_date root =
          .error (.valueError ("time data does not match format " ++ pyStrip t))) ∧
    strptimeDBY "21 December 2017" = some "2017-12-21" ∧
    strptimeDBY "1 January 2020" = some "2020-01-01" ∧
    strptimeDBY "31 February 2017" = none ∧
    strptimeDBY "21 Dec 2017" = none := by
  refine ⟨?_, ?_, ?_, by decide, by decide, by decide, by decide⟩
  · intro root h
    match hroot : root.dateTexts with
    | [] => simp [parse_date, hroot]
    | [t] => rw [hroot] at h; simp at h
    | t1 :: t2 :: ts => simp [parse_date, hroot]
  · intro root t iso h1 h2
    simp [parse_date, h1, h2]
  · intro root t h1 h2
    simp [parse_date, h1, h2]

/-- Witness for C7 on a page whose single date element reads
`21 December 2017` (with surrounding whitespace stripped). -/
theorem C7_parse_date_spec_witness :
    parse_date ⟨[], [], [" 21 December 2017 "], []⟩ = .ok (some "2017-12-21") := by
  exact C7_parse_date_spec.2.1 ⟨[], [], [" 21 December 2017 "], []⟩
    " 21 December 2017 " "2017-12-21" rfl (by decide)

theorem get_as_lxml_ok (w : RequestsWrapper) (url : String) (st : St)
    (hok : ¬ (400 ≤ (w.network url).statusCode ∧ (w.network url).statusCode < 600))
    (h301 : (w.network url).statusCode ≠ 301) :
    get_as_lxml w url st
      = (.ok (w.network url).page, { st with trace := st.trace ++ [url] }) := by
  simp [get_as_lxml, RequestsWrapper.get, raise_for_status, hok, h301]

/-- C9: downloading is not atomic on error — `download_and_add_sha`
truncates `pdfs/<filename>` before issuing the GET, so when the GET
returns an error status the exception propagates with an empty file
left at that path; the failing GET was issued. -/
theorem C9_truncate_before_get (w : RequestsWrapper) (pdf : PDF) (st : St)
    (h4 : 400 ≤ (w.network pdf.url).statusCode)
    (h6 : (w.network pdf.url).statusCode < 600) :
    (download_and_add_sha w pdf st).1
      = .error (.httpError pdf.url (w.network pdf.url).statusCode) ∧
    fsLookup (download_and_add_sha w pdf st).2.fs ("pdfs/" ++ pdf.filename)
      = some (.bytes []) ∧
    (download_and_add_sha w pdf st).2.trace = st.trace ++ [pdf.url] := by
  simp [download_and_add_sha, RequestsWrapper.get, raise_for_status,
    h4, h6, fsLookup]

/-- C10: on a successful GET, `download_and_add_sha` returns the input
record with only `sha256` replaced — by the digest of the downloaded
bytes — and every other field unchanged. -/
theorem C10_download_frame (w : RequestsWrapper) (pdf : PDF) (st : St)
    (hok : ¬ (400 ≤ (w.network pdf.url).statusCode ∧
              (w.network pdf.url).statusCode < 600)) :
    ∃ r : PDF, (download_and_add_sha w pdf st).1 = .ok r ∧
      r.id = pdf.id ∧ r.url = pdf.url ∧ r.type = pdf.type ∧
      r.date = pdf.date ∧ r.title = pdf.title ∧ r.filename = pdf.filename ∧
      r.sha256 = some (sha256hex (w.network pdf.url).content) := by
  have key : (download_and_add_sha w pdf st).1
      = .ok { pdf with sha256 := some (sha256hex (w.network pdf.url).content) } := by
    simp [download_and_add_sha, RequestsWrapper.get, raise_for_status, hok,
      sha256_file, bytesAt, fsLookup]
  exact ⟨_, key, rfl, rfl, rfl, rfl, rfl, rfl, rfl⟩

/-- C2: an HTTP error status (400–599) on any fetch — the list page or
a penalty page via `_get_as_lxml`, or a PDF download — raises through
`raise_for_status`, and the run stops at the failing fetch: no further
request is issued and, for a failing list page, the filesystem is
untouched. -/
theorem C2_raise_on_http_error :
    (∀ url r, 400 ≤ r.statusCode → r.statusCode < 600 →
        raise_for_status url r = .error (.httpError url r.statusCode)) ∧
    (∀ w url st, 400 ≤ (w.network url).statusCode →
        (w.network url).statusCode < 600 →
        (get_as_lxml w url st).1
          = .error (.httpError url (w.network url).statusCode) ∧
        (get_as_lxml w url st).2.trace = st.trace ++ [url]) ∧
    (∀ w pdf st, ∀ rest : List PDF, 400 ≤ (w.network pdf.url).statusCode →
        (w.network pdf.url).statusCode < 600 →
        (download_pdfs w (pdf :: rest) st).1
          = .error (.httpError pdf.url (w.network pdf.url).statusCode) ∧
        (download_pdfs w (pdf :: rest) st).2.trace = st.trace ++ [pdf.url]) ∧
    (∀ w now st, 400 ≤ (w.network LIST_URL).statusCode →
        (w.network LIST_URL).statusCode < 600 →
        (run w now st).1
          = .error (.httpError LIST_URL (w.network LIST_URL).statusCode) ∧
        (run w now st).2.trace = st.trace ++ [LIST_URL] ∧
        (run w now st).2.fs = st.fs) := by
  have hraise : ∀ url r, 400 ≤ r.statusCode → r.statusCode < 600 →
      raise_for_status url r = .error (.httpError url r.statusCode) := by
    intro url r h4 h6
    simp [raise_for_status, h4, h6]
  have hget : ∀ w url st, 400 ≤ (w.network url).statusCode →
      (w.network url).statusCode < 600 →
      get_as_lxml w url st
        = (.error (.httpError url (w.network url).statusCode),
           { st with trace := st.trace ++ [url] }) := by
    intro w url st h4 h6
    simp [get_as_lxml, RequestsWrapper.get, hraise url _ h4 h6]
  have hdl : ∀ w pdf st, 400 ≤ (w.network pdf.url).statusCode →
      (w.network pdf.url).statusCode < 600 →
      (download_and_add_sha w pdf st).1
        = .error (.httpError pdf.url (w.network pdf.url).statusCode) ∧
      (download_and_add_sha w pdf st).2.trace = st.trace ++ [pdf.url] := by
    intro w pdf st h4 h6
    simp [download_and_add_sha, RequestsWrapper.get, hraise pdf.url _ h4 h6]
  refine ⟨hraise, fun w url st h4 h6 => by rw [hget w url st h4 h6]; exact ⟨rfl, rfl⟩,
    ?_, ?_⟩
  · intro w pdf st rest h4 h6
    obtain ⟨e1, e2⟩ := hdl w pdf st h4 h6
    rcases hd : download_and_add_sha w pdf st with ⟨res, st1⟩
    rw [hd] at e1 e2
    cases res with
    | ok p1 => simp at e1
    | error e =>
      simp only [download_pdfs, hd]
      exact ⟨by simpa using e1, by simpa using e2⟩
  · intro w now st h4 h6
    have hlist : parse_list_page w st
        = (.error (.httpError LIST_URL (w.network LIST_URL).statusCode),
           { st with trace := st.trace ++ [LIST_URL] }) := by
      simp [parse_list_page, hget w LIST_URL st h4 h6]
    simp [run, hlist]

/-- C8: every request is one plain GET through the single
`RequestsWrapper`-owned cached session, which is configured with a
one-hour expiry; each fetch operation issues its URL exactly once,
whether it succeeds or raises, so no URL is retried. -/
theorem C8_single_get_per_fetch :
    ONE_HOUR = 3600 ∧
    (∀ n, (RequestsWrapper.init n).expire_after = ONE_HOUR) ∧
    (∀ w url st, RequestsWrapper.get w url st
        = (w.network url, { st with trace := st.trace ++ [url] })) ∧
    (∀ w url st, (get_as_lxml w url st).2.trace = st.trace ++ [url]) ∧
    (∀ w pdf st, (download_and_add_sha w pdf st).2.trace
        = st.trace ++ [pdf.url]) := by
  refine ⟨rfl, fun n => rfl, fun w url st => rfl, ?_, ?_⟩
  · intro w url st
    simp only [get_as_lxml, RequestsWrapper.get]
    rcases hr : raise_for_status url (w.network url) with e | u
    · simp
    · by_cases h301 : (w.network url).statusCode = 301 <;> simp [h301]
  · intro w pdf st
    simp only [download_and_add_sha, RequestsWrapper.get]
    rcases hr : raise_for_status pdf.url (w.network pdf.url) with e | u
    · simp
    · simp

/-- C1: on a successfully fetched penalty page,
`parse_pdf_url_from_penalty_page` returns exactly one `PDF` record
when exactly one anchor matches the PDF XPath (provided the date
parse does not raise), raises `RuntimeError` when more than one anchor
matches, and returns `None` for zero matches — a result the pipeline's
`filter(None, ...)` silently drops rather than turning into a record
or an error. -/
theorem C1_one_record_per_page (w : RequestsWrapper) (url : String) (st : St)
    (hok : ¬ (400 ≤ (w.network url).statusCode ∧ (w.network url).statusCode < 600))
    (h301 : (w.network url).statusCode ≠ 301) :
    (∀ a d, (w.network url).page.pdfAnchorHrefs = [a] →
        parse_date (w.network url).page = .ok d →
        (parse_pdf_url_from_penalty_page w url st).1 = .ok (some
          { id := parse_id (expand_href a)
            url := expand_href a
            type := parse_type (expand_href a)
            date := d
            title := parse_title (w.network url).page
            filename := basename (expand_href a)
            sha256 := none })) ∧
    (∀ a b l, (w.network url).page.pdfAnchorHrefs = a :: b :: l →
        (parse_pdf_url_from_penalty_page w url st).1
          = .error (.runtimeError ("Multiple PDF links: on page " ++ url))) ∧
    ((w.network url).page.pdfAnchorHrefs = [] →
        (parse_pdf_url_from_penalty_page w url st).1 = .ok none ∧
        ∀ rest, parse_pdf_urls_from_penalty_pages w (url :: rest) st =
          parse_pdf_urls_from_penalty_pages w rest
            (parse_pdf_url_from_penalty_page w url st).2) := by
  have hgot := get_as_lxml_ok w url st hok h301
  refine ⟨?_, ?_, ?_⟩
  · intro a d ha hd
    simp [parse_pdf_url_from_penalty_page, hgot, parse_pdf_url, ha, hd]
  · intro a b l ha
    simp [parse_pdf_url_from_penalty_page, hgot, parse_pdf_url, ha]
  · intro ha
    have h0 : parse_pdf_url_from_penalty_page w url st
        = (.ok none, { st with trace := st.trace ++ [url] }) := by
      simp [parse_pdf_url_from_penalty_page, hgot, parse_pdf_url, ha]
    refine ⟨by rw [h0], ?_⟩
    intro rest
    rw [parse_pdf_urls_from_penalty_pages, h0]
    rcases hr : parse_pdf_urls_from_penalty_pages w rest
        { st with trace := st.trace ++ [url] } with ⟨res, st2⟩
    cases res <;> simp [hr]

theorem get_as_lxml_state (w : RequestsWrapper) (url : String) (st : St) :
    (get_as_lxml w url st).2 = { st with trace := st.trace ++ [url] } := by
  simp only [get_as_lxml, RequestsWrapper.get]
  rcases hr : raise_for_status url (w.network url) with e | u
  · simp
  · by_cases h301 : (w.network url).statusCode = 301 <;> simp [h301]

theorem get_as_lxml_ok_inv (w : RequestsWrapper) (url : String) (st : St)
    (root : Page) (st1 : St) (h : get_as_lxml w url st = (.ok root, st1)) :
    root = (w.network url).page ∧
    st1 = { st with trace := st.trace ++ [url] } := by
  simp only [get_as_lxml, RequestsWrapper.get] at h
  rcases hr : raise_for_status url (w.network url) with e | u <;> rw [hr] at h
  · simp at h
  · by_cases h301 : (w.network url).statusCode = 301 <;> simp [h301] at h
    exact ⟨h.1.symm, h.2.symm⟩

theorem parse_list_page_ok (w : RequestsWrapper) (st : St)
    (pages : List String) (st1 : St)
    (h : parse_list_page w st = (.ok pages, st1)) :
    pages = (w.network LIST_URL).page.listAnchorHrefs.map expand_href ∧
    st1 = { st with trace := st.trace ++ [LIST_URL] } := by
  simp only [parse_list_page] at h
  rcases hg : get_as_lxml w LIST_URL st with ⟨res, stg⟩
  rw [hg] at h
  cases res with
  | error e => simp at h
  | ok root =>
    obtain ⟨hroot, hstg⟩ := get_as_lxml_ok_inv w LIST_URL st root stg hg
    simp only [Prod.mk.injEq] at h
    obtain ⟨hpages, hst⟩ := h
    cases hpages
    exact ⟨by rw [hroot], by rw [← hst, hstg]⟩

theorem parse_page_state (w : RequestsWrapper) (url : String) (st : St) :
    (parse_pdf_url_from_penalty_page w url st).2
      = { st with trace := st.trace ++ [url] } := by
  have hs := get_as_lxml_state w url st
  simp only [parse_pdf_url_from_penalty_page]
  split <;> rename_i x st1 heq <;> rw [heq] at hs <;> simp only at hs <;>
    (repeat' split) <;> simpa using hs

theorem parse_pages_ok_state (w : RequestsWrapper) : ∀ (pages : List String)
    (st : St) (l : List PDF) (st' : St),
    parse_pdf_urls_from_penalty_pages w pages st = (.ok l, st') →
    st' = { st with trace := st.trace ++ pages } := by
  intro pages
  induction pages with
  | nil =>
    intro st l st' h
    simp only [parse_pdf_urls_from_penalty_pages, Prod.mk.injEq] at h
    simp [← h.2]
  | cons p rest ih =>
    intro st l st' h
    have hst1 := parse_page_state w p st
    simp only [parse_pdf_urls_from_penalty_pages] at h
    rcases hp : parse_pdf_url_from_penalty_page w p st with ⟨res, st1⟩
    rw [hp] at h hst1
    simp only at hst1
    cases res with
    | error e => simp at h
    | ok opt =>
      simp only at h
      rcases hr : parse_pdf_urls_from_penalty_pages w rest st1 with ⟨res2, st2⟩
      rw [hr] at h
      cases res2 with
      | error e => simp at h
      | ok pdfs =>
        simp only [Prod.mk.injEq] at h
        have h2 := ih st1 pdfs st2 hr
        rw [← h.2, h2, hst1]
        simp

theorem download_one_ok (w : RequestsWrapper) (p : PDF) (st : St) (r : PDF)
    (st1 : St) (h : download_and_add_sha w p st = (.ok r, st1)) :
    r = { p with sha256 := some (sha256hex (w.network p.url).content) } ∧
    st1.trace = st.trace ++ [p.url] := by
  simp only [download_and_add_sha, RequestsWrapper.get] at h
  rcases hr : raise_for_status p.url (w.network p.url) with e | u <;> rw [hr] at h
  · simp at h
  · simp only [Prod.mk.injEq, Except.ok.injEq] at h
    obtain ⟨hrec, hst⟩ := h
    refine ⟨?_, by rw [← hst]⟩
    rw [← hrec]
    simp [sha256_file, bytesAt, fsLookup]

theorem download_pdfs_ok (w : RequestsWrapper) : ∀ (pdfs : List PDF) (st : St)
    (l : List PDF) (st' : St), download_pdfs w pdfs st = (.ok l, st') →
    st'.trace = st.trace ++ pdfs.map (fun p => p.url) ∧
    l.map (fun p => p.url) = pdfs.map (fun p => p.url) ∧
    ∀ p ∈ l, p.sha256 = some (sha256hex (w.network p.url).content) := by
  intro pdfs
  induction pdfs with
  | nil =>
    intro st l st' h
    simp only [download_pdfs, Prod.mk.injEq, Except.ok.injEq] at h
    obtain ⟨hl, hst⟩ := h
    simp [← hl, ← hst]
  | cons p rest ih =>
    intro st l st' h
    simp only [download_pdfs] at h
    rcases hd : download_and_add_sha w p st with ⟨res, st1⟩
    rw [hd] at h
    cases res with
    | error e => simp at h
    | ok r =>
      simp only at h
      obtain ⟨hr, htr⟩ := download_one_ok w p st r st1 hd
      rcases hrest : download_pdfs w rest st1 with ⟨res2, st2⟩
      rw [hrest] at h
      cases res2 with
      | error e => simp at h
      | ok rs =>
        simp only [Prod.mk.injEq, Except.ok.injEq] at h
        obtain ⟨hl, hst⟩ := h
        obtain ⟨ih1, ih2, ih3⟩ := ih st1 rs st2 hrest
        subst hl hst
        refine ⟨?_, ?_, ?_⟩
        · rw [ih1, htr]
          simp
        · simp only [List.map_cons, ih2, hr]
        · intro q hq
          rcases List.mem_cons.mp hq with hq1 | hq2
          · subst hq1
            rw [hr]
          · exact ih3 q hq2

theorem stableSort_perm (l : List (Int × PDF)) : List.Perm (stableSortByKey l) l :=
  List.perm_insertionSort _ l

theorem stableSort_sorted (l : List (Int × PDF)) :
    List.Sorted (fun a b : Int × PDF => a.1 ≤ b.1) (stableSortByKey l) := by
  haveI : IsTotal (Int × PDF) (fun a b => a.1 ≤ b.1) :=
    ⟨fun a b => Int.le_total a.1 b.1⟩
  haveI : IsTrans (Int × PDF) (fun a b => a.1 ≤ b.1) :=
    ⟨fun a b c hab hbc => le_trans hab hbc⟩
  exact List.sorted_insertionSort _ l

theorem isPySpace_of_digit (c : Char) (hc : c.isDigit = true) :
    isPySpace c = false := by
  by_contra hsp
  rw [Bool.not_eq_false] at hsp
  simp only [isPySpace, Bool.or_eq_true, decide_eq_true_eq] at hsp
  rcases hsp with ((((h | h) | h) | h) | h) | h <;> subst h <;>
    exact absurd hc (by decide)

theorem dropWhile_eq_self_of (p : Char → Bool) (l : List Char)
    (h : ∀ c ∈ l, p c = false) : l.dropWhile p = l := by
  cases l with
  | nil => rfl
  | cons c rest => simp [List.dropWhile_cons, h c (by simp)]

theorem pyIntParse_digits (s : String) (h1 : s.data ≠ [])
    (h2 : ∀ c ∈ s.data, c.isDigit = true) : ∃ n : Int, pyIntParse s = some n := by
  have hns : ∀ c ∈ s.data, isPySpace c = false :=
    fun c hc => isPySpace_of_digit c (h2 c hc)
  have e1 : s.data.dropWhile isPySpace = s.data := dropWhile_eq_self_of _ _ hns
  have e2 : s.data.reverse.dropWhile isPySpace = s.data.reverse :=
    dropWhile_eq_self_of _ _ (fun c hc => hns c (List.mem_reverse.mp hc))
  have el : ((s.data.dropWhile isPySpace).reverse.dropWhile isPySpace).reverse
      = s.data := by rw [e1, e2, List.reverse_reverse]
  have hhead : ∀ c, s.data.head? = some c → (c = '-' ∨ c = '+') → False := by
    intro c hc hpm
    have hmem : c ∈ s.data := by
      cases hl : s.data with
      | nil => rw [hl] at hc; simp at hc
      | cons a rest =>
        rw [hl] at hc
        simp only [List.head?_cons, Option.some.injEq] at hc
        simp [hl, hc]
    rcases hpm with h | h <;> subst h <;> exact absurd (h2 _ hmem) (by decide)
  refine ⟨1 * ((s.data.foldl (fun acc c => acc * 10 + digitVal c) 0 : Nat) : Int), ?_⟩
  have hminus : (s.data.head? = some '-') = False := by
    simp only [eq_iff_iff, iff_false]
    intro hc
    exact hhead '-' hc (Or.inl rfl)
  have hplus : (s.data.head? = some '+') = False := by
    simp only [eq_iff_iff, iff_false]
    intro hc
    exact hhead '+' hc (Or.inr rfl)
  simp only [pyIntParse, el, hminus, hplus, if_false, false_or, or_false]
  rw [if_pos ⟨h1, List.all_eq_true.mpr (fun c hc => h2 c hc)⟩]

theorem computeKeys_ok_map (pdfs : List PDF) : ∀ ks,
    computeKeys pdfs = .ok ks → ks.map (fun kp => kp.2) = pdfs := by
  induction pdfs with
  | nil =>
    intro ks h
    simp only [computeKeys, Except.ok.injEq] at h
    rw [← h]
    rfl
  | cons p rest ih =>
    intro ks h
    simp only [computeKeys] at h
    rcases hk : pyInt p.id with e | k <;> rw [hk] at h
    · simp at h
    · rcases hr : computeKeys rest with e | krest <;> rw [hr] at h
      · simp at h
      · simp only [Except.ok.injEq] at h
        rw [← h]
        simp [ih krest hr]

theorem computeKeys_total (pdfs : List PDF)
    (h : ∀ p ∈ pdfs, ∃ s, p.id = some s ∧ s.data ≠ [] ∧
      ∀ c ∈ s.data, c.isDigit = true) :
    ∃ ks, computeKeys pdfs = .ok ks := by
  induction pdfs with
  | nil => exact ⟨[], rfl⟩
  | cons p rest ih =>
    obtain ⟨s, hs, hne, hdig⟩ := h p (by simp)
    obtain ⟨n, hn⟩ := pyIntParse_digits s hne hdig
    obtain ⟨ks, hks⟩ := ih (fun q hq => h q (by simp [hq]))
    refine ⟨(n, p) :: ks, ?_⟩
    simp [computeKeys, pyInt, hs, hn, hks]

theorem computeKeys_none_error (pdfs : List PDF) : ∀ p : PDF, p ∈ pdfs →
    p.id = none → ∃ e, computeKeys pdfs = .error e := by
  induction pdfs with
  | nil => intro p hp; simp at hp
  | cons q rest ih =>
    intro p hp hid
    rcases hk : pyInt q.id with e | k
    · exact ⟨e, by simp [computeKeys, hk]⟩
    · rcases List.mem_cons.mp hp with h1 | h2
      · subst h1
        rw [hid] at hk
        simp [pyInt] at hk
      · obtain ⟨e, he⟩ := ih p h2 hid
        exact ⟨e, by simp [computeKeys, hk, he]⟩

theorem write_index_json_ok (pdfs : List PDF) (st : St)
    (ks : List (Int × PDF)) (hks : computeKeys pdfs = .ok ks) :
    write_index_json pdfs st =
      (.ok (), { st with fs := ("index.json", .json (.obj [("pdfs",
        .arr (((stableSortByKey ks).map (fun kp => kp.2)).map to_dict))]))
          :: st.fs }) := by
  simp [write_index_json, pySortedByIntId, hks]

theorem write_index_json_ok_inv (pdfs : List PDF) (st : St) (u : Unit)
    (st4 : St) (h : write_index_json pdfs st = (.ok u, st4)) :
    ∃ ks, computeKeys pdfs = .ok ks ∧
      st4 = { st with fs := ("index.json", .json (.obj [("pdfs", .arr
        (((stableSortByKey ks).map (fun kp => kp.2)).map to_dict))]))
          :: st.fs } := by
  simp only [write_index_json, pySortedByIntId] at h
  rcases hk : computeKeys pdfs with e | ks <;> rw [hk] at h
  · simp at h
  · simp only [Prod.mk.injEq] at h
    exact ⟨ks, rfl, h.2.symm⟩

theorem run_ok_inv (w : RequestsWrapper) (now : String) (st : St)
    (pdfs : List PDF) (st' : St) (h : run w now st = (.ok pdfs, st')) :
    st'.trace = st.trace ++ [LIST_URL]
      ++ ((w.network LIST_URL).page.listAnchorHrefs.map expand_href)
      ++ pdfs.map (fun p => p.url) ∧
    (∀ p ∈ pdfs, p.sha256 = some (sha256hex (w.network p.url).content)) ∧
    ∃ ks fs3, computeKeys pdfs = .ok ks ∧
      st'.fs = ("metadata.json", .json (.obj [("last_updated", .str now)]))
        :: ("index.json", .json (.obj [("pdfs", .arr
             (((stableSortByKey ks).map (fun kp => kp.2)).map to_dict))]))
        :: fs3 := by
  simp only [run] at h
  rcases h1 : parse_list_page w st with ⟨res1, st1⟩
  rw [h1] at h
  cases res1 with
  | error e => simp at h
  | ok pages =>
    simp only at h
    obtain ⟨hpages, hst1⟩ := parse_list_page_ok w st pages st1 h1
    rcases h2 : parse_pdf_urls_from_penalty_pages w pages st1 with ⟨res2, st2⟩
    rw [h2] at h
    cases res2 with
    | error e => simp at h
    | ok recs =>
      simp only at h
      have hst2 := parse_pages_ok_state w pages st1 recs st2 h2
      rcases h3 : download_pdfs w recs st2 with ⟨res3, st3⟩
      rw [h3] at h
      cases res3 with
      | error e => simp at h
      | ok downloaded =>
        simp only at h
        obtain ⟨htr3, hurls, hsha⟩ := download_pdfs_ok w recs st2 downloaded st3 h3
        rcases h4 : write_index_json downloaded st3 with ⟨res4, st4⟩
        rw [h4] at h
        cases res4 with
        | error e => simp at h
        | ok u =>
          simp only [write_metadata_json, Prod.mk.injEq, Except.ok.injEq] at h
          obtain ⟨hdl, hst'⟩ := h
          subst hdl
          obtain ⟨ks, hks, hst4⟩ := write_index_json_ok_inv downloaded st3 u st4 h4
          refine ⟨?_, hsha, ks, st3.fs, hks, ?_⟩
          · rw [← hst', hst4]
            simp only
            rw [htr3, hst2, hst1, hurls, hpages]
            try simp
          · rw [← hst', hst4]

/-- C5: `run` executes the pipeline stages in fixed order, each
consuming the previous stage's output: on a successful run the request
trace is exactly the list page, then every penalty-page link of the
list page in order, then every surviving record's PDF URL in order —
no fetch repeated, none skipped — and both `index.json` and
`metadata.json` are written. -/
theorem C5_pipeline_order (w : RequestsWrapper) (now : String) (st : St)
    (pdfs : List PDF) (st' : St) (h : run w now st = (.ok pdfs, st')) :
    st'.trace = st.trace ++ [LIST_URL]
      ++ ((w.network LIST_URL).page.listAnchorHrefs.map expand_href)
      ++ pdfs.map (fun p => p.url) ∧
    fsLookup st'.fs "metadata.json"
      = some (.json (.obj [("last_updated", .str now)])) ∧
    ∃ js, fsLookup st'.fs "index.json"
      = some (.json (.obj [("pdfs", .arr js)])) := by
  obtain ⟨htr, hsha, ks, fs3, hks, hfs⟩ := run_ok_inv w now st pdfs st' h
  refine ⟨htr, ?_, ?_⟩
  · rw [hfs]
    simp [fsLookup]
  · refine ⟨((stableSortByKey ks).map (fun kp => kp.2)).map to_dict, ?_⟩
    rw [hfs]
    simp [fsLookup]

/-- C3: after a successful run, `index.json` holds, for every
downloaded PDF, its `to_dict` record with keys exactly `id`, `url`,
`type`, `date`, `title`, `filename`, `sha256` in that order, where
the `sha256` field is the SHA-256 hex digest of the downloaded file's
bytes. -/
theorem C3_index_records (w : RequestsWrapper) (now : String) (st : St)
    (pdfs : List PDF) (st' : St) (h : run w now st = (.ok pdfs, st')) :
    ∃ js, fsLookup st'.fs "index.json"
        = some (.json (.obj [("pdfs", .arr js)])) ∧
      ∀ p ∈ pdfs, to_dict p ∈ js ∧
        jkeys (to_dict p)
          = ["id", "url", "type", "date", "title", "filename", "sha256"] ∧
        p.sha256 = some (sha256hex (w.network p.url).content) := by
  obtain ⟨htr, hsha, ks, fs3, hks, hfs⟩ := run_ok_inv w now st pdfs st' h
  refine ⟨((stableSortByKey ks).map (fun kp => kp.2)).map to_dict, ?_, ?_⟩
  · rw [hfs]
    simp [fsLookup]
  · intro p hp
    refine ⟨?_, rfl, hsha p hp⟩
    have hmap := computeKeys_ok_map pdfs ks hks
    have hp2 : p ∈ ks.map (fun kp => kp.2) := by rw [hmap]; exact hp
    obtain ⟨kp, hkp, hkp2⟩ := List.mem_map.mp hp2
    have hmem : kp ∈ stableSortByKey ks := ((stableSort_perm ks).mem_iff).mpr hkp
    have : kp.2 ∈ (stableSortByKey ks).map (fun kp => kp.2) :=
      List.mem_map_of_mem _ hmem
    rw [← hkp2]
    exact List.mem_map_of_mem _ this

/-- C4: `write_index_json` sorts the records ascending by the integer
value of `id` (a stable sort on total keys); this is total exactly
when every surviving id is a nonempty decimal digit string, and a
record with id `None` — which `_parse_id` yields for a PDF URL with no
`/<digits>/` segment — makes the write raise from the sort key
(`int(None)`, a `TypeError` when first) with `index.json` left
unwritten. -/
theorem C4_sort_key_totality :
    (∀ pdfs : List PDF, ∀ st : St,
      (∀ p ∈ pdfs, ∃ s, p.id = some s ∧ s.data ≠ [] ∧
          ∀ c ∈ s.data, c.isDigit = true) →
      ∃ ks, computeKeys pdfs = .ok ks ∧
        List.Sorted (fun a b : Int × PDF => a.1 ≤ b.1) (stableSortByKey ks) ∧
        List.Perm (stableSortByKey ks) ks ∧
        write_index_json pdfs st = (.ok (),
          { st with fs := ("index.json", .json (.obj [("pdfs", .arr
            (((stableSortByKey ks).map (fun kp => kp.2)).map to_dict))]))
              :: st.fs })) ∧
    (∀ pdfs : List PDF, ∀ st : St, ∀ p : PDF, p ∈ pdfs → p.id = none →
        (∃ e, (write_index_json pdfs st).1 = .error e) ∧
        (write_index_json pdfs st).2 = st) ∧
    (∀ p : PDF, ∀ rest : List PDF, ∀ st : St, p.id = none →
        (write_index_json (p :: rest) st).1
          = .error (.typeError "int argument must be a string, not NoneType")) ∧
    parse_id "https://ico.org.uk/media/action-weve-taken/mpns/acme.pdf"
      = none := by
  refine ⟨?_, ?_, ?_, by decide⟩
  · intro pdfs st h
    obtain ⟨ks, hks⟩ := computeKeys_total pdfs h
    exact ⟨ks, hks, stableSort_sorted ks, stableSort_perm ks,
      write_index_json_ok pdfs st ks hks⟩
  · intro pdfs st p hp hid
    obtain ⟨e, he⟩ := computeKeys_none_error pdfs p hp hid
    have hs : pySortedByIntId pdfs = .error e := by
      simp [pySortedByIntId, he]
    exact ⟨⟨e, by simp [write_index_json, hs]⟩, by simp [write_index_json, hs]⟩
  · intro p rest st hid
    have h1 : computeKeys (p :: rest)
        = .error (.typeError "int argument must be a string, not NoneType") := by
      simp [computeKeys, pyInt, hid]
    simp [write_index_json, pySortedByIntId, h1]

/-- Witness for C1 on the demo acme penalty page (one matching anchor). -/
theorem C1_one_record_per_page_witness :
    (parse_pdf_url_from_penalty_page demoW acmePageUrl st0).1
      = .ok (some acmeRec) := by
  have h := (C1_one_record_per_page demoW acmePageUrl st0
    (by decide) (by decide)).1
    "/media/action-weve-taken/mpns/2014001/acme.pdf" (some "2017-12-21") rfl rfl
  rw [h]
  rfl

/-- Witness for C2: on a network that always answers 500, the run
raises at the list page and requests nothing else. -/
theorem C2_raise_on_http_error_witness :
    (run badW "2020-01-01T00:00:00" st0).1
      = .error (.httpError LIST_URL 500) ∧
    (run badW "2020-01-01T00:00:00" st0).2.trace = st0.trace ++ [LIST_URL] ∧
    (run badW "2020-01-01T00:00:00" st0).2.fs = st0.fs :=
  C2_raise_on_http_error.2.2.2 badW "2020-01-01T00:00:00" st0
    (by decide) (by decide)

/-- Witness for C9: the demo network 404s `badPdf.url`, and an empty
`pdfs/bad.pdf` is left behind. -/
theorem C9_truncate_before_get_witness :
    (download_and_add_sha demoW badPdf st0).1
      = .error (.httpError badPdf.url (demoW.network badPdf.url).statusCode) ∧
    fsLookup (download_and_add_sha demoW badPdf st0).2.fs
      ("pdfs/" ++ badPdf.filename) = some (.bytes []) ∧
    (download_and_add_sha demoW badPdf st0).2.trace
      = st0.trace ++ [badPdf.url] :=
  C9_truncate_before_get demoW badPdf st0 (by decide) (by decide)

/-- Witness for C10 on the demo PDF download. -/
theorem C10_download_frame_witness :
    ∃ r : PDF, (download_and_add_sha demoW acmeRec st0).1 = .ok r ∧
      r.id = acmeRec.id ∧ r.url = acmeRec.url ∧ r.type = acmeRec.type ∧
      r.date = acmeRec.date ∧ r.title = acmeRec.title ∧
      r.filename = acmeRec.filename ∧
      r.sha256 = some (sha256hex (demoW.network acmeRec.url).content) :=
  C10_download_frame demoW acmeRec st0 (by decide)

/-- Witness for C4 on two records with digit ids. -/
theorem C4_sort_key_totality_witness :
    ∃ ks, computeKeys [acmeRec, earlyRec] = .ok ks ∧
      List.Sorted (fun a b : Int × PDF => a.1 ≤ b.1) (stableSortByKey ks) ∧
      List.Perm (stableSortByKey ks) ks ∧
      write_index_json [acmeRec, earlyRec] st0 = (.ok (),
        { st0 with fs := ("index.json", .json (.obj [("pdfs", .arr
          (((stableSortByKey ks).map (fun kp => kp.2)).map to_dict))]))
            :: st0.fs }) :=
  C4_sort_key_totality.1 [acmeRec, earlyRec] st0 (by
    intro p hp
    rcases List.mem_cons.mp hp with h1 | h1
    · subst h1
      exact ⟨"2014001", rfl, by decide, by decide⟩
    · rcases List.mem_cons.mp h1 with h2 | h2
      · subst h2
        exact ⟨"5", rfl, by decide, by decide⟩
      · simp at h2)

/-- Witness for C5 on the no-PDF demo network. -/
theorem C5_pipeline_order_witness :
    (run noPdfW "2020-01-01T00:00:00" st0).2.trace = st0.trace ++ [LIST_URL]
      ++ ((noPdfW.network LIST_URL).page.listAnchorHrefs.map expand_href)
      ++ ([] : List PDF).map (fun p => p.url) ∧
    fsLookup (run noPdfW "2020-01-01T00:00:00" st0).2.fs "metadata.json"
      = some (.json (.obj [("last_updated", .str "2020-01-01T00:00:00")])) ∧
    ∃ js, fsLookup (run noPdfW "2020-01-01T00:00:00" st0).2.fs "index.json"
      = some (.json (.obj [("pdfs", .arr js)])) :=
  C5_pipeline_order noPdfW "2020-01-01T00:00:00" st0 []
    (run noPdfW "2020-01-01T00:00:00" st0).2 (by rfl)

set_option maxRecDepth 400000 in
/-- Witness for C3 on the full demo run (one downloaded PDF). -/
theorem C3_index_records_witness :
    ∃ js, fsLookup (run demoW "2020-01-01T00:00:00" st0).2.fs "index.json"
        = some (.json (.obj [("pdfs", .arr js)])) ∧
      ∀ p ∈ demoDownloaded, to_dict p ∈ js ∧
        jkeys (to_dict p)
          = ["id", "url", "type", "date", "title", "filename", "sha256"] ∧
        p.sha256 = some (sha256hex (demoW.network p.url).content) :=
  C3_index_records demoW "2020-01-01T00:00:00" st0 demoDownloaded
    (run demoW "2020-01-01T00:00:00" st0).2 (by rfl)

end ICO
